import Mathlib

/-!
Verification of the action-execution subsystem and control loop of the
`agent_town` repository.

The embedding follows the TypeScript sources:
  * `src/index.ts` (second document): the `Action` implementations
    (`MoveToPositionAction`, `EatAction`, `FollowAndAttackAction`,
    `DigBlockAction`) and the sequential executor `ActionChains`.
  * `src/unnamed/part_001`: the `AiBot` control loop (`act`, `addAction`,
    `LOOP_INTERVAL_MS`).
  * `src/unnamed/part_000`: the while-based control loop (`loop`) with its
    try/catch around the planner call.
  * `src/bot.ts`: the `AiBot.followAndAttack` variant.

JavaScript asynchrony is embedded as follows: every `await` of an external
completion is a suspension point; the eventual outcome of an action's
`act()` (resolution or rejection) is supplied by an oracle function
`actB : ActionVal → Except ActError Unit`, and the outcome of an action's
`cancel()` by an oracle `cancelB`.  Observable behaviour (chat lines,
console logs, timer arming, act outcomes) is recorded as a list of `Event`s
in temporal order.  Since in JavaScript an `await` always defers its
continuation past the synchronous remainder of the caller, events produced
after the first `await` inside a launched-but-not-awaited async call are
ordered after the events of the caller's synchronous remainder; `StartResult`
keeps the two segments (`syncEvents` / `asyncEvents`) explicit.
-/

/-- JavaScript values that occur as action parameters: numbers, strings,
and `undefined` (the result of reading an absent property). -/
inductive Json where
  | num (n : Int)
  | str (s : String)
  | undef
deriving DecidableEq, Repr

/-- Pathfinder goals issued to the actuator (`bot.pathfinder.setGoal`):
`GoalNear`/`GoalBlock` positions or a `GoalFollow` on an entity. -/
inductive GoalVal where
  | near (x y z : Json)
  | block (x y z : Json)
  | follow (entityId : Json)
deriving DecidableEq, Repr

/-- Observable actuator-side state touched by the actions' `act`/`cancel`
bodies: the current pathfinder goal, whether an equip+consume directive is
in flight, and whether the bot is digging. -/
structure ActuatorState where
  pathfinderGoal : Option GoalVal
  consumeInFlight : Bool
  digging : Bool
deriving DecidableEq, Repr

/-- World state read by the actions: the ids of entities that currently
exist (`bot.entities`) and the item names in the inventory
(`bot.inventory.items()`). -/
structure World where
  entities : List Int
  inventory : List String
deriving DecidableEq, Repr

/-- Errors thrown by the actions' `act` bodies, by source line:
`itemNotFound` is `Error("Item ... not found in inventory")` in
`EatAction.act`; `entityNotFound` is `Error("Entity ... not found")` in
`FollowAndAttackAction.act`; `moveTimeout` is `Error("Move timeout")`;
`other` covers faults raised by the underlying actuator. -/
inductive ActError where
  | itemNotFound (itemName : Json)
  | entityNotFound (entityId : Json)
  | moveTimeout
  | other (msg : String)
deriving DecidableEq, Repr

/-- A concrete `Action` value: one of the four exported classes of
`src/index.ts`, identified by its kind and constructor parameters.  The
parameters are `Json` because in the source they are whatever the decision
payload carried (`args.x` etc., possibly `undefined`). -/
inductive ActionVal where
  | moveToPosition (x y z : Json)
  | eat (itemName : Json)
  | followAndAttack (entityId : Json)
  | digBlock (x y z : Json)
deriving DecidableEq, Repr

/-- The `toJSON()` method of each action class: the kind tag (matching the
class's `FUNCTION_DELCLARATION.name`) plus the `args` record. -/
def ActionVal.toJSON : ActionVal → String × List (String × Json)
  | .moveToPosition x y z => ("move_to_position", [("x", x), ("y", y), ("z", z)])
  | .eat itemName => ("eat", [("itemName", itemName)])
  | .followAndAttack entityId => ("follow_and_attack", [("entityId", entityId)])
  | .digBlock x y z => ("dig_block", [("x", x), ("y", y), ("z", z)])

/-- Observable events, in temporal order of occurrence. -/
inductive Event where
  /-- The status-summary chat line at the top of `AiBot.act`. -/
  | statusChat
  /-- The `model.generateContent` call was issued. -/
  | plannerCalled
  /-- The rejection of the planner call propagated out of `act` uncaught. -/
  | uncaughtRejection (msg : String)
  /-- Chat `"No actions to perform."` at the top of `ActionChains.start`. -/
  | chatNoActions
  /-- Chat `"Starting N actions."` at the top of `ActionChains.start`. -/
  | chatStarting (n : Nat)
  /-- `act()` of the action at index `i` was invoked. -/
  | actStart (i : Nat)
  /-- The `await action.act()` at index `i` resolved successfully. -/
  | actOk (i : Nat)
  /-- The `await action.act()` at index `i` rejected with `e`. -/
  | actFail (i : Nat) (e : ActError)
  /-- The failure was logged (console + chat) with `JSON.stringify(action)`,
  i.e. with the failing action's `toJSON()` output. -/
  | failureLogged (json : String × List (String × Json))
  /-- `ActionChains.reset` invoked `cancel()` on the action at index `i`. -/
  | cancelAttempt (i : Nat)
  /-- The `cancel()` call threw and the exception was logged and swallowed
  by the `catch` inside `ActionChains.reset`. -/
  | cancelFailLogged (e : ActError)
  /-- `setTimeout(() => this.act(), delayMs)` was executed. -/
  | scheduleNext (delayMs : Nat)
deriving DecidableEq, Repr

/-- The executor state of `ActionChains`: the stored action list and the
cursor `currentActionIndex`. -/
structure ActionChains where
  actions : List ActionVal
  currentActionIndex : Nat
deriving DecidableEq, Repr

/-- `ActionChains.add`: unconditionally pushes the action onto the list and
returns the chain (`this.actions.push(action); return this;`). -/
def ActionChains.add (s : ActionChains) (action : ActionVal) : ActionChains :=
  { s with actions := s.actions ++ [action] }

/-- `ActionChains.toJSON`: the `toJSON()` output of every action from
`currentActionIndex` onward (the `for` loop over `i = currentActionIndex`
to `actions.length`). -/
def ActionChains.toJSON (s : ActionChains) : List (String × List (String × Json)) :=
  (s.actions.drop s.currentActionIndex).map ActionVal.toJSON

/-- Result of a fully awaited executor operation: the new executor state,
the new actuator state, and the events emitted. -/
structure ExecResult where
  chains : ActionChains
  actuator : ActuatorState
  events : List Event
deriving DecidableEq, Repr

/-- `ActionChains.reset`: if the cursor points at an action
(`currentActionIndex < actions.length`), call its `cancel()` — an exception
from `cancel()` is caught and logged — then clear the list and zero the
cursor regardless.  The outcome of a `cancel()` call is supplied by the
oracle `cancelB` (it may mutate the actuator and may throw). -/
def ActionChains.reset
    (cancelB : ActionVal → ActuatorState → ActuatorState × Except ActError Unit)
    (s : ActionChains) (ac : ActuatorState) : ExecResult :=
  if h : s.currentActionIndex < s.actions.length then
    let action := s.actions.get ⟨s.currentActionIndex, h⟩
    let r := cancelB action ac
    match r.2 with
    | .ok _ =>
        { chains := ⟨[], 0⟩, actuator := r.1,
          events := [.cancelAttempt s.currentActionIndex] }
    | .error e =>
        { chains := ⟨[], 0⟩, actuator := r.1,
          events := [.cancelAttempt s.currentActionIndex, .cancelFailLogged e] }
  else
    { chains := ⟨[], 0⟩, actuator := ac, events := [] }

/-- The `while (this.currentActionIndex < this.actions.length)` loop of
`ActionChains.start`, iterating over the suffix of `full` from index `idx`
(`pending = full.drop idx` at every call).  On success of `await
action.act()` the cursor advances and the loop continues; on rejection the
failure is logged with the action's `toJSON()`, `this.reset()` is awaited
(which cancels the action still under the cursor — the one that failed)
and the loop breaks. -/
def ActionChains.startLoop
    (actB : ActionVal → Except ActError Unit)
    (cancelB : ActionVal → ActuatorState → ActuatorState × Except ActError Unit)
    (full : List ActionVal) (ac : ActuatorState) :
    List ActionVal → Nat → ExecResult
  | [], idx => { chains := ⟨full, idx⟩, actuator := ac, events := [] }
  | action :: rest, idx =>
    match actB action with
    | .ok _ =>
        let r := ActionChains.startLoop actB cancelB full ac rest (idx + 1)
        { chains := r.chains, actuator := r.actuator,
          events := .actStart idx :: .actOk idx :: r.events }
    | .error e =>
        let r := ActionChains.reset cancelB ⟨full, idx⟩ ac
        { chains := r.chains, actuator := r.actuator,
          events := .actStart idx :: .actFail idx e ::
            .failureLogged action.toJSON :: r.events }

/-- Result of calling (not awaiting) `ActionChains.start`: `syncEvents` are
the events of the synchronous prefix (up to the first `await` inside the
loop) and `asyncEvents` those from the first suspension onward. -/
structure StartResult where
  chains : ActionChains
  actuator : ActuatorState
  syncEvents : List Event
  asyncEvents : List Event
deriving DecidableEq, Repr

/-- All events of a run of `ActionChains.start`, in temporal order. -/
def StartResult.events (r : StartResult) : List Event :=
  r.syncEvents ++ r.asyncEvents

/-- `ActionChains.start`: chat `"No actions to perform."` or
`"Starting N actions."`, then run the while loop from the cursor. -/
def ActionChains.start
    (actB : ActionVal → Except ActError Unit)
    (cancelB : ActionVal → ActuatorState → ActuatorState × Except ActError Unit)
    (s : ActionChains) (ac : ActuatorState) : StartResult :=
  let chatEv := if s.actions.length = 0 then Event.chatNoActions
    else Event.chatStarting s.actions.length
  let r := ActionChains.startLoop actB cancelB s.actions ac
    (s.actions.drop s.currentActionIndex) s.currentActionIndex
  { chains := r.chains, actuator := r.actuator,
    syncEvents := [chatEv], asyncEvents := r.events }

/-- Lookup of a property on a JavaScript args object: `args.key` evaluates
to the stored value, or to `undefined` when the key is absent. -/
def jsGet (args : List (String × Json)) (key : String) : Json :=
  match args.lookup key with
  | some v => v
  | none => Json.undef

/-- Truthiness of `this.bot.entities[entityId]`: an entity object is found
exactly when `entityId` is a number naming an existing entity. -/
def World.entityExists (w : World) (entityId : Json) : Bool :=
  match entityId with
  | .num i => w.entities.contains i
  | _ => false

/-- Phase reached by an `act()` body that did not throw synchronously. -/
inductive ActLaunch where
  /-- The body reached its `await` and is suspended on actuator signals. -/
  | suspendedAwaitingCompletion
deriving DecidableEq, Repr

/-- `FollowAndAttackAction.act` (src/index.ts): look up
`this.bot.entities[this.entityId]`; if the entity exists, issue the
`GoalFollow` directive and enter the physicsTick attack loop (a suspension);
otherwise log and `throw new Error("Entity ... not found")` immediately —
before any directive is issued and before any `await` is reached. -/
def FollowAndAttackAction.act (w : World) (entityId : Json)
    (ac : ActuatorState) : ActuatorState × Except ActError ActLaunch :=
  if w.entityExists entityId then
    ({ ac with pathfinderGoal := some (GoalVal.follow entityId) },
      .ok .suspendedAwaitingCompletion)
  else
    (ac, .error (.entityNotFound entityId))

/-- Outcome of the `AiBot.followAndAttack` helper of `src/bot.ts`. -/
inductive FollowOutcome where
  /-- The `GoalFollow` directive was issued and the attack listener armed. -/
  | directiveIssued
  /-- The entity was absent: the helper logged
  `"cannot follow and attack entity ...: not found"` and executed `return;`
  — a normal return, no exception. -/
  | loggedAndReturned
deriving DecidableEq, Repr

/-- `AiBot.followAndAttack` (src/bot.ts, lines 247-263): if the entity
exists, set the `GoalFollow` goal and arm the attack tick; otherwise log
and `return` without error. -/
def AiBotBot.followAndAttack (w : World) (entityId : Int)
    (ac : ActuatorState) : ActuatorState × Except ActError FollowOutcome :=
  if w.entities.contains entityId then
    ({ ac with pathfinderGoal := some (GoalVal.follow (Json.num entityId)) },
      .ok .directiveIssued)
  else
    (ac, .ok .loggedAndReturned)

/-- `EatAction.act` (src/index.ts): find the item by name in the inventory;
if present, `await equip` then `await consume` (the consume directive goes
in flight); otherwise log and throw `Error("Item ... not found in
inventory")`. -/
def EatAction.act (w : World) (itemName : Json)
    (ac : ActuatorState) : ActuatorState × Except ActError Unit :=
  match w.inventory.find? (fun n => Json.str n == itemName) with
  | some _ => ({ ac with consumeInFlight := true }, .ok ())
  | none => (ac, .error (.itemNotFound itemName))

/-- The `cancel()` body of each action class of `src/index.ts`.
`MoveToPositionAction.cancel`: if a pathfinder goal is set, clear it and
await `path_reset`.  `EatAction.cancel`: an empty body (comment: "Eating
cannot be cancelled") — it touches nothing and resolves.
`FollowAndAttackAction.cancel`: remove the attack listener; if a goal is
set, `pathfinder.stop()` and await `path_reset`.  `DigBlockAction.cancel`:
`stopDigging()`, then clear the goal if one is set.  None of the four
bodies contains a `throw`. -/
def ActionVal.cancel (a : ActionVal) (ac : ActuatorState) :
    ActuatorState × Except ActError Unit :=
  match a with
  | .moveToPosition _ _ _ =>
      if ac.pathfinderGoal.isSome then ({ ac with pathfinderGoal := none }, .ok ())
      else (ac, .ok ())
  | .eat _ => (ac, .ok ())
  | .followAndAttack _ =>
      if ac.pathfinderGoal.isSome then ({ ac with pathfinderGoal := none }, .ok ())
      else (ac, .ok ())
  | .digBlock _ _ _ =>
      if ac.pathfinderGoal.isSome then
        ({ ac with digging := false, pathfinderGoal := none }, .ok ())
      else ({ ac with digging := false }, .ok ())

/-- `AiBot.LOOP_INTERVAL_MS` (src/unnamed/part_001, line 61). -/
def AiBot.LOOP_INTERVAL_MS : Nat := 10000

/-- `AiBot.addAction` (src/unnamed/part_001): translate one tool call
(name + args) into a concrete action and `add` it to the chain; an
unrecognized name is logged (`"unknown tool call"`) and dropped. -/
def AiBot.addAction (s : ActionChains) (name : String)
    (args : List (String × Json)) : ActionChains :=
  if name = "move_to_position" then
    s.add (.moveToPosition (jsGet args "x") (jsGet args "y") (jsGet args "z"))
  else if name = "eat" then
    s.add (.eat (jsGet args "itemName"))
  else if name = "follow_and_attack" then
    s.add (.followAndAttack (jsGet args "entityId"))
  else
    s

/-- The observable result of one invocation of `AiBot.act`
(src/unnamed/part_001): the executor and actuator states when the cycle's
work has drained, the events in temporal order, and whether
`setTimeout(() => this.act(), LOOP_INTERVAL_MS)` was reached. -/
structure CycleOutcome where
  chains : ActionChains
  actuator : ActuatorState
  events : List Event
  nextCycleScheduled : Bool
deriving DecidableEq, Repr

/-- One invocation of `AiBot.act` (src/unnamed/part_001, lines 220-256).
The body: scan, status chat, `await this.model.generateContent(...)` — this
await is NOT inside any try/catch, so a rejection propagates out of `act`
and the trailing `setTimeout` is never executed.  On success: `await
this.actions.reset()`, translate every returned function call via
`addAction`, call `this.actions.start()` WITHOUT awaiting it (the run's
synchronous prefix — its initial chat — executes, then the run suspends at
its first `await action.act()`), and finally execute
`setTimeout(() => this.act(), LOOP_INTERVAL_MS)`.  Hence in the event
order the `scheduleNext` event falls between the run's synchronous prefix
and the run's asynchronous events. -/
def AiBot.actCycle
    (actB : ActionVal → Except ActError Unit)
    (cancelB : ActionVal → ActuatorState → ActuatorState × Except ActError Unit)
    (plannerOutcome : Except String (List (String × List (String × Json))))
    (chains : ActionChains) (ac : ActuatorState) : CycleOutcome :=
  match plannerOutcome with
  | .error msg =>
      { chains := chains, actuator := ac,
        events := [.statusChat, .plannerCalled, .uncaughtRejection msg],
        nextCycleScheduled := false }
  | .ok calls =>
      let r := ActionChains.reset cancelB chains ac
      let s2 := calls.foldl (fun s c => AiBot.addAction s c.1 c.2) r.chains
      let run := ActionChains.start actB cancelB s2 r.actuator
      { chains := run.chains, actuator := run.actuator,
        events := [.statusChat, .plannerCalled] ++ r.events
          ++ run.syncEvents ++ [.scheduleNext AiBot.LOOP_INTERVAL_MS]
          ++ run.asyncEvents,
        nextCycleScheduled := true }

/-- The tool calls of the src/unnamed/part_000 variant. -/
inductive ToolCall0 where
  | say (text : String)
  | goto (x y z : Int)
  | fleeFrom (x y z minDistance : Int)
  | wait (ms : Nat)
  | eatFromInventory (prefer : List String)
deriving DecidableEq, Repr

/-- Result of one iteration of the part_000 `loop`. -/
inductive CycleResult0 where
  /-- `planner.decide` resolved and the returned tools were executed. -/
  | completed (tools : List ToolCall0)
  /-- `planner.decide` rejected; the `catch` logged `"[loop] error:"`. -/
  | plannerErrorLogged (msg : String)
deriving DecidableEq, Repr

/-- One iteration of the `while (controlLoopActive && !stopRequested)` loop
of src/unnamed/part_000 (lines 300-312): the whole body — `sense`,
`planner.decide`, and the `executeTool` calls — sits inside
`try { ... } catch (e) { console.error("[loop] error:", ...) }`, so a
planner rejection is logged and the iteration completes normally. -/
def part0LoopIter (plannerOutcome : Except String (List ToolCall0)) :
    CycleResult0 :=
  match plannerOutcome with
  | .ok tools => .completed tools
  | .error msg => .plannerErrorLogged msg

/-- The part_000 `loop`, run over a finite schedule of per-cycle planner
outcomes: every scheduled cycle executes its body under the try/catch and
then proceeds to the next one. -/
def part0Loop : List (Except String (List ToolCall0)) → List CycleResult0
  | [] => []
  | o :: rest => part0LoopIter o :: part0Loop rest

/-- Contribution of an event to the number of actions currently in the
"running" state: an `act()` invocation raises it, a resolution or a
rejection lowers it. -/
def Event.runDelta : Event → Int
  | .actStart _ => 1
  | .actOk _ => -1
  | .actFail _ _ => -1
  | _ => 0

/-- Number of actions in the "running" state after the events `tr`. -/
def runningIn (tr : List Event) : Int :=
  (tr.map Event.runDelta).sum

/-- Number of successful act resolutions in a trace. -/
def countOk (tr : List Event) : Nat :=
  tr.countP (fun e => match e with | .actOk _ => true | _ => false)

/-- Checker: starting from `c` running actions, the running count stays
within `[0, 1]` after every event of the trace. -/
def seqOk : List Event → Int → Bool
  | [], _ => true
  | e :: rest, c =>
    let c2 := c + e.runDelta
    decide (0 ≤ c2) && decide (c2 ≤ 1) && seqOk rest c2

/-- Whether an event is the arming of the next control-loop cycle. -/
def Event.isSchedule : Event → Bool
  | .scheduleNext _ => true
  | _ => false

/-- Whether an event is the completion or abort of an `await action.act()`. -/
def Event.isRunEnd : Event → Bool
  | .actOk _ => true
  | .actFail _ _ => true
  | _ => false

/-- Whether an action is a `DigBlockAction`. -/
def ActionVal.isDigBlock : ActionVal → Bool
  | .digBlock _ _ _ => true
  | _ => false

/-- Concrete fixture: an eat action. -/
def sampleEatBread : ActionVal := .eat (Json.str "bread")

/-- Concrete fixture: a move action. -/
def sampleMove : ActionVal := .moveToPosition (Json.num 1) (Json.num 2) (Json.num 3)

/-- Concrete fixture: a second eat action. -/
def sampleEatApple : ActionVal := .eat (Json.str "apple")

/-- Oracle under which every eat action's `act()` rejects (item absent)
and every other action resolves. -/
def actBEatFails : ActionVal → Except ActError Unit
  | .eat itemName => .error (.itemNotFound itemName)
  | _ => .ok ()

/-- Oracle under which every `act()` resolves. -/
def actBAllOk : ActionVal → Except ActError Unit := fun _ => .ok ()

/-- Oracle under which every `cancel()` throws. -/
def cancelBThrows : ActionVal → ActuatorState → ActuatorState × Except ActError Unit :=
  fun _ ac => (ac, .error (.other "cancel failed"))

/-- Concrete initial actuator state. -/
def acInit : ActuatorState := ⟨none, false, false⟩

lemma reset_chains_idle (cancelB) (s : ActionChains) (ac : ActuatorState) :
    (ActionChains.reset cancelB s ac).chains = ⟨[], 0⟩ := by
  unfold ActionChains.reset
  split
  · simp only []
    split <;> rfl
  · rfl

lemma reset_on_idle (cancelB) (ac : ActuatorState) :
    ActionChains.reset cancelB ⟨[], 0⟩ ac
      = { chains := ⟨[], 0⟩, actuator := ac, events := [] } := by
  unfold ActionChains.reset
  rfl

lemma foldl_add (batch : List ActionVal) : ∀ s : ActionChains,
    batch.foldl ActionChains.add s
      = ⟨s.actions ++ batch, s.currentActionIndex⟩ := by
  induction batch with
  | nil => intro s; simp
  | cons a rest ih =>
      intro s
      simp only [List.foldl_cons, ih]
      simp [ActionChains.add]

/-- C5: `reset()` is idempotent — it always leaves the Executor idle
(empty list, cursor zero, empty pending list); a second `reset()`, and a
`reset()` on an already-idle Executor, leave the same idle state, perform
no further cancellation and emit no events. -/
theorem c5_reset_idempotent (cancelB) (s : ActionChains) (ac : ActuatorState) :
    (ActionChains.reset cancelB s ac).chains = ⟨[], 0⟩ ∧
    (ActionChains.reset cancelB s ac).chains.toJSON = [] ∧
    ActionChains.reset cancelB (ActionChains.reset cancelB s ac).chains
        (ActionChains.reset cancelB s ac).actuator
      = { chains := ⟨[], 0⟩,
          actuator := (ActionChains.reset cancelB s ac).actuator,
          events := [] } ∧
    ActionChains.reset cancelB ⟨[], 0⟩ ac
      = { chains := ⟨[], 0⟩, actuator := ac, events := [] } := by
  refine ⟨reset_chains_idle cancelB s ac, ?_, ?_, reset_on_idle cancelB ac⟩
  · rw [reset_chains_idle]
    rfl
  · rw [reset_chains_idle]
    exact reset_on_idle cancelB _

/-- C10: whatever the executor state and whatever the current action's
`cancel()` does — including throwing — `reset()` catches and logs the
cancellation exception and leaves the Executor idle with an empty list and
cursor zero. -/
theorem c10_reset_always_idle (cancelB) (s : ActionChains) (ac : ActuatorState) :
    (ActionChains.reset cancelB s ac).chains = ⟨[], 0⟩ ∧
    ∀ (h : s.currentActionIndex < s.actions.length) (e : ActError),
      (cancelB (s.actions.get ⟨s.currentActionIndex, h⟩) ac).2 = Except.error e →
      Event.cancelFailLogged e ∈ (ActionChains.reset cancelB s ac).events := by
  refine ⟨reset_chains_idle cancelB s ac, ?_⟩
  intro h e he
  unfold ActionChains.reset
  rw [dif_pos h]
  simp only [he]
  simp

/-- C10 witness: a concrete reset whose `cancel()` throws still drains to
the idle state and logs the cancellation failure. -/
theorem c10_reset_always_idle_witness :
    (ActionChains.reset cancelBThrows ⟨[sampleMove], 0⟩ acInit).chains = ⟨[], 0⟩ ∧
    Event.cancelFailLogged (ActError.other "cancel failed")
      ∈ (ActionChains.reset cancelBThrows ⟨[sampleMove], 0⟩ acInit).events :=
  ⟨(c10_reset_always_idle cancelBThrows ⟨[sampleMove], 0⟩ acInit).1,
   (c10_reset_always_idle cancelBThrows ⟨[sampleMove], 0⟩ acInit).2
     (by decide) (ActError.other "cancel failed") rfl⟩

/-- C6: `EatAction.cancel` has an empty body ("Eating cannot be
cancelled"): calling it while the consume directive is in flight returns
without error, changes nothing on the actuator, and in particular leaves
the in-flight consume directive running to completion. -/
theorem c6_eat_cancel_noop (itemName : Json) (ac : ActuatorState) :
    ActionVal.cancel (ActionVal.eat itemName) ac = (ac, Except.ok ()) ∧
    (ActionVal.cancel (ActionVal.eat itemName) ac).1.consumeInFlight
      = ac.consumeInFlight :=
  ⟨rfl, rfl⟩

/-- C3 counterexample: `ActionChains.add` on an Executor with an active Run
(non-empty list, cursor at its head) accepts the new action and queues it
behind the active one instead of rejecting the submission — there is no
active-Run check anywhere in `add`. -/
theorem c3_counterexample :
    ActionChains.add ⟨[sampleMove], 0⟩ sampleEatBread
      = ⟨[sampleMove, sampleEatBread], 0⟩ ∧
    (ActionChains.add ⟨[sampleMove], 0⟩ sampleEatBread).actions.length = 2 := by
  refine ⟨rfl, rfl⟩

/-- C3 amended: `add` never rejects — it appends the action and leaves the
cursor untouched; exclusivity of Runs is instead obtained by the control
loop calling `reset()` first, after which folding a batch through `add`
stores exactly that batch with the cursor at zero. -/
theorem c3_add_appends_after_reset (cancelB) (s : ActionChains)
    (ac : ActuatorState) (batch : List ActionVal)
    (t : ActionChains) (a : ActionVal) :
    (ActionChains.add t a).actions = t.actions ++ [a] ∧
    (ActionChains.add t a).currentActionIndex = t.currentActionIndex ∧
    batch.foldl ActionChains.add (ActionChains.reset cancelB s ac).chains
      = ⟨batch, 0⟩ := by
  refine ⟨rfl, rfl, ?_⟩
  rw [reset_chains_idle, foldl_add]
  simp

/-- C4 counterexample: in the `AiBot.act` loop of src/unnamed/part_001 a
planner-call rejection is NOT caught — `act` aborts before its trailing
`setTimeout`, so the next cycle is never scheduled and the loop dies. -/
theorem c4_counterexample :
    (AiBot.actCycle actBAllOk ActionVal.cancel
        (Except.error "oracle unreachable") ⟨[], 0⟩ acInit).nextCycleScheduled
      = false := rfl

/-- C4 amended: planner-failure handling differs between the two loop
variants.  In the part_000 `loop`, the planner call sits inside the
iteration's try/catch: a rejection is logged and every scheduled cycle
still runs (one result per scheduled cycle).  In the part_001 `AiBot.act`
loop, a planner rejection propagates uncaught: the executor state is left
untouched and the next cycle is never scheduled. -/
theorem c4_planner_failure_two_variants :
    (∀ outcomes : List (Except String (List ToolCall0)),
      (part0Loop outcomes).length = outcomes.length) ∧
    (∀ msg : String,
      part0LoopIter (Except.error msg) = CycleResult0.plannerErrorLogged msg) ∧
    (∀ actB cancelB (msg : String) (chains : ActionChains) (ac : ActuatorState),
      (AiBot.actCycle actB cancelB (Except.error msg) chains ac).nextCycleScheduled
          = false ∧
      (AiBot.actCycle actB cancelB (Except.error msg) chains ac).chains = chains ∧
      Event.uncaughtRejection msg
        ∈ (AiBot.actCycle actB cancelB (Except.error msg) chains ac).events) := by
  refine ⟨?_, fun msg => rfl, fun actB cancelB msg chains ac => ⟨rfl, rfl, ?_⟩⟩
  · intro outcomes
    induction outcomes with
    | nil => rfl
    | cons o rest ih => simp [part0Loop, ih]
  · simp [AiBot.actCycle]

/-- C7 counterexample: the `AiBot.followAndAttack` variant of src/bot.ts,
invoked with a target entity that no longer exists, does not fail at all —
it logs and returns normally (an `ok` outcome, no directive issued), not an
immediate `TargetInvalid` error. -/
theorem c7_counterexample :
    AiBotBot.followAndAttack ⟨[], []⟩ 7 acInit
      = (acInit, Except.ok FollowOutcome.loggedAndReturned) := rfl

/-- C7 amended: the Action-contract implementation
(`FollowAndAttackAction.act` of src/index.ts) does fail immediately when
its target is absent: before issuing any directive and before reaching any
await, it throws the entity-not-found error (the `TargetInvalid` case of
the taxonomy); the src/bot.ts `AiBot.followAndAttack` helper instead logs
and returns without error. -/
theorem c7_follow_and_attack_target_gone (w : World) (entityId : Json)
    (ac : ActuatorState) (h : w.entityExists entityId = false) :
    FollowAndAttackAction.act w entityId ac
      = (ac, Except.error (ActError.entityNotFound entityId)) := by
  unfold FollowAndAttackAction.act
  rw [h]
  simp

/-- C7 witness: a concrete absent target makes `act()` fail immediately. -/
theorem c7_follow_and_attack_target_gone_witness :
    FollowAndAttackAction.act ⟨[], []⟩ (Json.num 7) acInit
      = (acInit, Except.error (ActError.entityNotFound (Json.num 7))) :=
  c7_follow_and_attack_target_gone ⟨[], []⟩ (Json.num 7) acInit (by decide)

/-- C8 counterexample: `DigBlockAction` is a concrete Action whose
`toJSON()` output ("dig_block" + args), fed back through
`AiBot.addAction`, is dropped as an unrecognized tool call — no equivalent
Action is reconstructed. -/
theorem c8_counterexample :
    AiBot.addAction ⟨[], 0⟩
        (ActionVal.digBlock (Json.num 1) (Json.num 2) (Json.num 3)).toJSON.1
        (ActionVal.digBlock (Json.num 1) (Json.num 2) (Json.num 3)).toJSON.2
      = ⟨[], 0⟩ ∧
    (⟨[], 0⟩ : ActionChains)
      ≠ ActionChains.add ⟨[], 0⟩
          (ActionVal.digBlock (Json.num 1) (Json.num 2) (Json.num 3)) := by
  refine ⟨rfl, by decide⟩

/-- C8 amended: for the three action kinds registered with the part_001
control loop (`move_to_position`, `eat`, `follow_and_attack`), feeding an
action's `toJSON()` output back through `AiBot.addAction` reconstructs an
equal action appended to the chain; the fourth concrete Action
(`DigBlockAction`) is not registered and its output is dropped. -/
theorem c8_round_trip (s : ActionChains) (a : ActionVal)
    (h : a.isDigBlock = false) :
    AiBot.addAction s a.toJSON.1 a.toJSON.2 = s.add a := by
  cases a with
  | moveToPosition x y z => rfl
  | eat itemName => rfl
  | followAndAttack entityId => rfl
  | digBlock x y z => exact absurd h (by simp [ActionVal.isDigBlock])

/-- C8 witness: the round trip on a concrete eat action. -/
theorem c8_round_trip_witness :
    AiBot.addAction ⟨[], 0⟩ sampleEatBread.toJSON.1 sampleEatBread.toJSON.2
      = ActionChains.add ⟨[], 0⟩ sampleEatBread :=
  c8_round_trip ⟨[], 0⟩ sampleEatBread (by decide)

lemma seqOk_reset (cancelB) (s : ActionChains) (ac : ActuatorState) :
    seqOk (ActionChains.reset cancelB s ac).events 0 = true := by
  unfold ActionChains.reset
  split
  · simp only []
    split <;> simp [seqOk, Event.runDelta]
  · simp [seqOk]

lemma seqOk_startLoop (actB) (cancelB) (full : List ActionVal)
    (ac : ActuatorState) : ∀ (pending : List ActionVal) (idx : Nat),
    seqOk (ActionChains.startLoop actB cancelB full ac pending idx).events 0
      = true := by
  intro pending
  induction pending with
  | nil => intro idx; rfl
  | cons a rest ih =>
      intro idx
      unfold ActionChains.startLoop
      cases ha : actB a with
      | ok u =>
          simp only [ha]
          simp [seqOk, Event.runDelta, ih (idx + 1)]
      | error e =>
          simp only [ha]
          simp [seqOk, Event.runDelta, seqOk_reset]

lemma seqOk_prefix_bound : ∀ (tr : List Event) (c : Int), 0 ≤ c → c ≤ 1 →
    seqOk tr c = true →
    ∀ p, p <+: tr → 0 ≤ c + runningIn p ∧ c + runningIn p ≤ 1 := by
  intro tr
  induction tr with
  | nil =>
      intro c h0 h1 _ p hp
      rcases hp with ⟨t, ht⟩
      have hp' : p = [] := (List.append_eq_nil.mp ht).1
      subst hp'
      simp only [runningIn, List.map_nil, List.sum_nil]
      omega
  | cons e rest ih =>
      intro c h0 h1 hseq p hp
      rcases hp with ⟨t, ht⟩
      cases p with
      | nil =>
          simp only [runningIn, List.map_nil, List.sum_nil]
          omega
      | cons e' q =>
          have he : e' = e := by injection ht
          have hq : q ++ t = rest := by injection ht
          subst he
          simp only [seqOk, Bool.and_eq_true, decide_eq_true_eq] at hseq
          obtain ⟨⟨hb0, hb1⟩, hrest⟩ := hseq
          have hih := ih _ hb0 hb1 hrest q ⟨t, hq⟩
          simp only [runningIn, List.map_cons, List.sum_cons] at hih ⊢
          omega

lemma seqOk_cons_zero (e : Event) (tr : List Event)
    (h0 : Event.runDelta e = 0) (ht : seqOk tr 0 = true) :
    seqOk (e :: tr) 0 = true := by
  simp [seqOk, h0, ht]

lemma countOk_cons_actStart (i : Nat) (l : List Event) :
    countOk (Event.actStart i :: l) = countOk l := by
  simp [countOk, List.countP_cons]

lemma countOk_cons_actOk (i : Nat) (l : List Event) :
    countOk (Event.actOk i :: l) = countOk l + 1 := by
  simp [countOk, List.countP_cons]

lemma startLoop_cons_ok (actB) (cancelB) (full : List ActionVal)
    (ac : ActuatorState) (a : ActionVal) (rest : List ActionVal) (idx : Nat)
    (u : Unit) (ha : actB a = Except.ok u) :
    ActionChains.startLoop actB cancelB full ac (a :: rest) idx
      = { chains := (ActionChains.startLoop actB cancelB full ac rest (idx + 1)).chains,
          actuator := (ActionChains.startLoop actB cancelB full ac rest (idx + 1)).actuator,
          events := Event.actStart idx :: Event.actOk idx ::
            (ActionChains.startLoop actB cancelB full ac rest (idx + 1)).events } := by
  conv_lhs => unfold ActionChains.startLoop
  rw [ha]

lemma startLoop_cons_error (actB) (cancelB) (full : List ActionVal)
    (ac : ActuatorState) (a : ActionVal) (rest : List ActionVal) (idx : Nat)
    (e : ActError) (ha : actB a = Except.error e) :
    ActionChains.startLoop actB cancelB full ac (a :: rest) idx
      = { chains := (ActionChains.reset cancelB ⟨full, idx⟩ ac).chains,
          actuator := (ActionChains.reset cancelB ⟨full, idx⟩ ac).actuator,
          events := Event.actStart idx :: Event.actFail idx e ::
            Event.failureLogged a.toJSON ::
            (ActionChains.reset cancelB ⟨full, idx⟩ ac).events } := by
  conv_lhs => unfold ActionChains.startLoop
  rw [ha]

lemma startLoop_noFail (actB) (cancelB) (full : List ActionVal)
    (ac : ActuatorState) : ∀ (pending : List ActionVal) (idx : Nat),
    (∀ i e, Event.actFail i e ∉
        (ActionChains.startLoop actB cancelB full ac pending idx).events) →
    (ActionChains.startLoop actB cancelB full ac pending idx).chains.currentActionIndex
      = idx + countOk (ActionChains.startLoop actB cancelB full ac pending idx).events := by
  intro pending
  induction pending with
  | nil => intro idx _; simp [ActionChains.startLoop, countOk]
  | cons a rest ih =>
      intro idx hnf
      cases ha : actB a with
      | ok u =>
          rw [startLoop_cons_ok actB cancelB full ac a rest idx u ha] at hnf ⊢
          have hnf' : ∀ i e, Event.actFail i e ∉
              (ActionChains.startLoop actB cancelB full ac rest (idx + 1)).events := by
            intro i e hmem
            exact hnf i e (by simp [hmem])
          have hrec := ih (idx + 1) hnf'
          show (ActionChains.startLoop actB cancelB full ac rest (idx + 1)).chains.currentActionIndex
              = idx + countOk (Event.actStart idx :: Event.actOk idx ::
                  (ActionChains.startLoop actB cancelB full ac rest (idx + 1)).events)
          rw [countOk_cons_actStart, countOk_cons_actOk]
          omega
      | error e =>
          exfalso
          apply hnf idx e
          rw [startLoop_cons_error actB cancelB full ac a rest idx e ha]
          simp

lemma startLoop_fail (actB) (cancelB) (full : List ActionVal)
    (ac : ActuatorState) : ∀ (pending : List ActionVal) (idx i : Nat) (e : ActError),
    Event.actFail i e ∈
        (ActionChains.startLoop actB cancelB full ac pending idx).events →
    (ActionChains.startLoop actB cancelB full ac pending idx).chains = ⟨[], 0⟩ := by
  intro pending
  induction pending with
  | nil => intro idx i e hmem; simp [ActionChains.startLoop] at hmem
  | cons a rest ih =>
      intro idx i e hmem
      cases ha : actB a with
      | ok u =>
          rw [startLoop_cons_ok actB cancelB full ac a rest idx u ha] at hmem ⊢
          simp only [List.mem_cons] at hmem
          rcases hmem with h | h | h
          · exact absurd h (by simp)
          · exact absurd h (by simp)
          · exact ih (idx + 1) i e h
      | error e2 =>
          rw [startLoop_cons_error actB cancelB full ac a rest idx e2 ha]
          exact reset_chains_idle cancelB ⟨full, idx⟩ ac

lemma reset_events_members (cancelB) (s : ActionChains) (ac : ActuatorState) :
    ∀ ev ∈ (ActionChains.reset cancelB s ac).events,
      (∃ i, ev = Event.cancelAttempt i) ∨ (∃ e2, ev = Event.cancelFailLogged e2) := by
  unfold ActionChains.reset
  split
  · simp only []
    split <;> intro ev hm <;> simp only [List.mem_cons, List.not_mem_nil, or_false] at hm
    · exact Or.inl ⟨_, hm⟩
    · rcases hm with hm | hm
      · exact Or.inl ⟨_, hm⟩
      · exact Or.inr ⟨_, hm⟩
  · intro ev hm
    simp at hm

lemma actStart_not_mem_reset (cancelB) (s : ActionChains) (ac : ActuatorState)
    (j : Nat) : Event.actStart j ∉ (ActionChains.reset cancelB s ac).events := by
  intro hm
  rcases reset_events_members cancelB s ac _ hm with ⟨i, hi⟩ | ⟨e2, he2⟩
  · exact Event.noConfusion hi
  · exact Event.noConfusion he2

lemma start_events_eq (actB) (cancelB) (s : ActionChains) (ac : ActuatorState) :
    (ActionChains.start actB cancelB s ac).events
      = (if s.actions.length = 0 then Event.chatNoActions
          else Event.chatStarting s.actions.length)
        :: (ActionChains.startLoop actB cancelB s.actions ac
            (s.actions.drop s.currentActionIndex) s.currentActionIndex).events := rfl

lemma start_chains_eq (actB) (cancelB) (s : ActionChains) (ac : ActuatorState) :
    (ActionChains.start actB cancelB s ac).chains
      = (ActionChains.startLoop actB cancelB s.actions ac
          (s.actions.drop s.currentActionIndex) s.currentActionIndex).chains := rfl

lemma start_idle_no_actStart (actB) (cancelB) (ac : ActuatorState) (j : Nat) :
    Event.actStart j ∉ (ActionChains.start actB cancelB ⟨[], 0⟩ ac).events := by
  simp [ActionChains.start, ActionChains.startLoop, StartResult.events]

/-- C1: in every run executed by `ActionChains.start`, at most one action
is in the "running" state at any instant (every prefix of the event trace
has a running count of at most one); the cursor advances only on success
(when no act rejects, the final cursor is the initial cursor plus the
number of successful resolutions); and after a failure — or after an
external `reset()` (cancellation) — the executor is idle and a new `start`
launches no action, so the run never resumes from the point of failure. -/
theorem c1_strict_sequencing (actB) (cancelB) (s : ActionChains)
    (ac : ActuatorState) :
    (∀ p, p <+: (ActionChains.start actB cancelB s ac).events →
      runningIn p ≤ 1) ∧
    ((∀ i e, Event.actFail i e ∉ (ActionChains.start actB cancelB s ac).events) →
      (ActionChains.start actB cancelB s ac).chains.currentActionIndex
        = s.currentActionIndex
          + countOk (ActionChains.start actB cancelB s ac).events) ∧
    (∀ i e, Event.actFail i e ∈ (ActionChains.start actB cancelB s ac).events →
      (ActionChains.start actB cancelB s ac).chains = ⟨[], 0⟩) ∧
    (∀ j, Event.actStart j ∉
      (ActionChains.start actB cancelB (ActionChains.reset cancelB s ac).chains
        (ActionChains.reset cancelB s ac).actuator).events) := by
  refine ⟨?_, ?_, ?_, ?_⟩
  · intro p hp
    have hseq : seqOk (ActionChains.start actB cancelB s ac).events 0 = true := by
      rw [start_events_eq]
      refine seqOk_cons_zero _ _ ?_ (seqOk_startLoop actB cancelB _ _ _ _)
      split <;> rfl
    have hb := seqOk_prefix_bound _ 0 le_rfl (by norm_num) hseq p hp
    omega
  · intro hnf
    rw [start_chains_eq]
    have hnf' : ∀ i e, Event.actFail i e ∉
        (ActionChains.startLoop actB cancelB s.actions ac
          (s.actions.drop s.currentActionIndex) s.currentActionIndex).events := by
      intro i e hm
      exact hnf i e (by rw [start_events_eq]; exact List.mem_cons_of_mem _ hm)
    rw [startLoop_noFail actB cancelB _ _ _ _ hnf']
    congr 1
    rw [start_events_eq]
    simp only [countOk, List.countP_cons]
    split <;> simp
  · intro i e hm
    rw [start_chains_eq]
    rw [start_events_eq] at hm
    rcases List.mem_cons.mp hm with h | h
    · exact absurd h (by split <;> simp)
    · exact startLoop_fail actB cancelB _ _ _ _ i e h
  · intro j
    rw [reset_chains_idle]
    exact start_idle_no_actStart actB cancelB _ j

/-- C1 witness: on the concrete run `[eat "bread"]` whose act rejects, a
concrete prefix of the trace has at most one running action, and after the
failure the executor is idle. -/
theorem c1_strict_sequencing_witness :
    runningIn [Event.chatStarting 1, Event.actStart 0] ≤ 1 ∧
    (ActionChains.start actBEatFails ActionVal.cancel
        ⟨[sampleEatBread], 0⟩ acInit).chains = ⟨[], 0⟩ := by
  constructor
  · exact (c1_strict_sequencing actBEatFails ActionVal.cancel
        ⟨[sampleEatBread], 0⟩ acInit).1
      [Event.chatStarting 1, Event.actStart 0]
      ⟨[Event.actFail 0 (ActError.itemNotFound (Json.str "bread")),
        Event.failureLogged ("eat", [("itemName", Json.str "bread")]),
        Event.cancelAttempt 0], rfl⟩
  · exact (c1_strict_sequencing actBEatFails ActionVal.cancel
        ⟨[sampleEatBread], 0⟩ acInit).2.2.1 0
      (ActError.itemNotFound (Json.str "bread")) (by decide)

/-- C2: in a run `[A, B, C]` whose first action's act rejects, B and C are
never started, the failure is logged with A's `toJSON()` output, and the
run is reset as part of the abort, so `toJSON()` (pending) right after the
abort is already empty. -/
theorem c2_first_failure_aborts (A B C : ActionVal) (actB) (cancelB)
    (ac : ActuatorState) (e : ActError) (hA : actB A = Except.error e) :
    Event.actStart 1 ∉ (ActionChains.start actB cancelB ⟨[A, B, C], 0⟩ ac).events ∧
    Event.actStart 2 ∉ (ActionChains.start actB cancelB ⟨[A, B, C], 0⟩ ac).events ∧
    Event.failureLogged A.toJSON
      ∈ (ActionChains.start actB cancelB ⟨[A, B, C], 0⟩ ac).events ∧
    (ActionChains.start actB cancelB ⟨[A, B, C], 0⟩ ac).chains = ⟨[], 0⟩ ∧
    (ActionChains.start actB cancelB ⟨[A, B, C], 0⟩ ac).chains.toJSON = [] := by
  have hev : (ActionChains.start actB cancelB ⟨[A, B, C], 0⟩ ac).events
      = Event.chatStarting 3 :: Event.actStart 0 :: Event.actFail 0 e ::
        Event.failureLogged A.toJSON ::
        (ActionChains.reset cancelB ⟨[A, B, C], 0⟩ ac).events := by
    rw [start_events_eq]
    simp only [List.length_cons, List.length_nil, List.drop_zero]
    rw [startLoop_cons_error actB cancelB [A, B, C] ac A [B, C] 0 e hA]
    norm_num
  have hch : (ActionChains.start actB cancelB ⟨[A, B, C], 0⟩ ac).chains
      = ⟨[], 0⟩ := by
    rw [start_chains_eq]
    simp only [List.drop_zero]
    rw [startLoop_cons_error actB cancelB [A, B, C] ac A [B, C] 0 e hA]
    exact reset_chains_idle cancelB ⟨[A, B, C], 0⟩ ac
  refine ⟨?_, ?_, ?_, hch, by rw [hch]; rfl⟩
  · rw [hev]
    intro hm
    simp only [List.mem_cons] at hm
    rcases hm with h | h | h | h | h
    · exact Event.noConfusion h
    · exact absurd h (by simp)
    · exact Event.noConfusion h
    · exact Event.noConfusion h
    · exact actStart_not_mem_reset cancelB _ ac 1 h
  · rw [hev]
    intro hm
    simp only [List.mem_cons] at hm
    rcases hm with h | h | h | h | h
    · exact Event.noConfusion h
    · exact absurd h (by simp)
    · exact Event.noConfusion h
    · exact Event.noConfusion h
    · exact actStart_not_mem_reset cancelB _ ac 2 h
  · rw [hev]
    simp

/-- C2 witness: the concrete run `[eat "bread", move, eat "apple"]` under
an oracle where the eat rejects: the move and the second eat never start,
the failure is logged with the failing action's description, and pending
is empty right after the abort. -/
theorem c2_first_failure_aborts_witness :
    Event.actStart 1 ∉ (ActionChains.start actBEatFails ActionVal.cancel
        ⟨[sampleEatBread, sampleMove, sampleEatApple], 0⟩ acInit).events ∧
    Event.actStart 2 ∉ (ActionChains.start actBEatFails ActionVal.cancel
        ⟨[sampleEatBread, sampleMove, sampleEatApple], 0⟩ acInit).events ∧
    Event.failureLogged sampleEatBread.toJSON
      ∈ (ActionChains.start actBEatFails ActionVal.cancel
          ⟨[sampleEatBread, sampleMove, sampleEatApple], 0⟩ acInit).events ∧
    (ActionChains.start actBEatFails ActionVal.cancel
        ⟨[sampleEatBread, sampleMove, sampleEatApple], 0⟩ acInit).chains
      = ⟨[], 0⟩ ∧
    (ActionChains.start actBEatFails ActionVal.cancel
        ⟨[sampleEatBread, sampleMove, sampleEatApple], 0⟩ acInit).chains.toJSON
      = [] :=
  c2_first_failure_aborts sampleEatBread sampleMove sampleEatApple
    actBEatFails ActionVal.cancel acInit
    (ActError.itemNotFound (Json.str "bread")) rfl

/-- C2 counterexample: immediately after the abort, `toJSON()` (pending)
returns `[]`, not the descriptions `[B, C]` — the abort path of `start`
itself performs the `reset()` before breaking, so the not-yet-started
actions are already cleared. -/
theorem c2_counterexample :
    (ActionChains.start actBEatFails ActionVal.cancel
        ⟨[sampleEatBread, sampleMove, sampleEatApple], 0⟩ acInit).chains.toJSON
      = [] ∧
    (ActionChains.start actBEatFails ActionVal.cancel
        ⟨[sampleEatBread, sampleMove, sampleEatApple], 0⟩ acInit).chains.toJSON
      ≠ [sampleMove.toJSON, sampleEatApple.toJSON] := by
  refine ⟨rfl, by decide⟩

lemma reset_ev_flags (cancelB) (s : ActionChains) (ac : ActuatorState) :
    ∀ ev ∈ (ActionChains.reset cancelB s ac).events,
      Event.isRunEnd ev = false ∧ Event.isSchedule ev = false := by
  intro ev hm
  rcases reset_events_members cancelB s ac ev hm with ⟨i, h⟩ | ⟨e2, h⟩ <;>
    subst h <;> exact ⟨rfl, rfl⟩

lemma startLoop_no_schedule (actB) (cancelB) (full : List ActionVal)
    (ac : ActuatorState) : ∀ (pending : List ActionVal) (idx : Nat),
    ∀ ev ∈ (ActionChains.startLoop actB cancelB full ac pending idx).events,
      Event.isSchedule ev = false := by
  intro pending
  induction pending with
  | nil => intro idx ev hm; simp [ActionChains.startLoop] at hm
  | cons a rest ih =>
      intro idx ev hm
      cases ha : actB a with
      | ok u =>
          rw [startLoop_cons_ok actB cancelB full ac a rest idx u ha] at hm
          simp only [List.mem_cons] at hm
          rcases hm with h | h | h
          · subst h; rfl
          · subst h; rfl
          · exact ih (idx + 1) ev h
      | error e =>
          rw [startLoop_cons_error actB cancelB full ac a rest idx e ha] at hm
          simp only [List.mem_cons] at hm
          rcases hm with h | h | h | h
          · subst h; rfl
          · subst h; rfl
          · subst h; rfl
          · exact (reset_ev_flags cancelB ⟨full, idx⟩ ac ev h).2

/-- C9 counterexample: a concrete successful cycle whose batch contains one
move action: in the event order of `AiBot.act`, the arming of the next
cycle (`setTimeout`, index 3) comes BEFORE the run's completion (`actOk`,
index 5) — the next cycle is scheduled at the launch of step 5 (the
`start()` call is not awaited), not after the run has completed. -/
theorem c9_counterexample :
    List.indexOf (Event.scheduleNext 10000)
        (AiBot.actCycle actBAllOk ActionVal.cancel
          (Except.ok [("move_to_position",
            [("x", Json.num 1), ("y", Json.num 2), ("z", Json.num 3)])])
          ⟨[], 0⟩ acInit).events = 3 ∧
    List.indexOf (Event.actOk 0)
        (AiBot.actCycle actBAllOk ActionVal.cancel
          (Except.ok [("move_to_position",
            [("x", Json.num 1), ("y", Json.num 2), ("z", Json.num 3)])])
          ⟨[], 0⟩ acInit).events = 5 ∧
    (3 : Nat) < 5 := by
  refine ⟨by decide, by decide, by norm_num⟩

/-- C9 amended: every successful cycle of `AiBot.act` arms exactly one
timer, always with the fixed, non-adaptive delay `LOOP_INTERVAL_MS =
10000` ms, and that arming precedes every act completion or abort of the
cycle's run: the cadence is measured from the launch of the run (the
un-awaited `start()` call), not from its completion. -/
theorem c9_fixed_cadence_armed_at_launch (actB) (cancelB)
    (calls : List (String × List (String × Json)))
    (chains : ActionChains) (ac : ActuatorState) :
    ∃ pre post,
      (AiBot.actCycle actB cancelB (Except.ok calls) chains ac).events
        = pre ++ Event.scheduleNext AiBot.LOOP_INTERVAL_MS :: post ∧
      AiBot.LOOP_INTERVAL_MS = 10000 ∧
      (∀ ev ∈ pre, Event.isRunEnd ev = false ∧ Event.isSchedule ev = false) ∧
      (∀ ev ∈ post, Event.isSchedule ev = false) := by
  refine ⟨[Event.statusChat, Event.plannerCalled]
      ++ (ActionChains.reset cancelB chains ac).events
      ++ (ActionChains.start actB cancelB
            ((calls.foldl (fun s c => AiBot.addAction s c.1 c.2)
              (ActionChains.reset cancelB chains ac).chains))
            (ActionChains.reset cancelB chains ac).actuator).syncEvents,
    (ActionChains.start actB cancelB
        ((calls.foldl (fun s c => AiBot.addAction s c.1 c.2)
          (ActionChains.reset cancelB chains ac).chains))
        (ActionChains.reset cancelB chains ac).actuator).asyncEvents,
    ?_, rfl, ?_, ?_⟩
  · show ([Event.statusChat, Event.plannerCalled]
        ++ (ActionChains.reset cancelB chains ac).events
        ++ _ ++ [Event.scheduleNext AiBot.LOOP_INTERVAL_MS] ++ _)
      = _
    simp [List.append_assoc]
  · intro ev hm
    simp only [List.mem_append, List.mem_cons, List.not_mem_nil, or_false] at hm
    rcases hm with ((h | h) | h) | h
    · subst h; exact ⟨rfl, rfl⟩
    · subst h; exact ⟨rfl, rfl⟩
    · exact reset_ev_flags cancelB chains ac ev h
    · have hsync : (ActionChains.start actB cancelB
          ((calls.foldl (fun s c => AiBot.addAction s c.1 c.2)
            (ActionChains.reset cancelB chains ac).chains))
          (ActionChains.reset cancelB chains ac).actuator).syncEvents
          = [if ((calls.foldl (fun s c => AiBot.addAction s c.1 c.2)
              (ActionChains.reset cancelB chains ac).chains)).actions.length = 0
             then Event.chatNoActions
             else Event.chatStarting ((calls.foldl (fun s c => AiBot.addAction s c.1 c.2)
              (ActionChains.reset cancelB chains ac).chains)).actions.length] := rfl
      rw [hsync] at h
      simp only [List.mem_cons, List.not_mem_nil, or_false] at h
      subst h
      split <;> exact ⟨rfl, rfl⟩
  · intro ev hm
    exact startLoop_no_schedule actB cancelB _ _ _ _ ev hm

/-- C9 witness: the amended cadence statement applied to a concrete cycle
with one move action. -/
theorem c9_fixed_cadence_armed_at_launch_witness :
    ∃ pre post,
      (AiBot.actCycle actBAllOk ActionVal.cancel
          (Except.ok [("move_to_position",
            [("x", Json.num 1), ("y", Json.num 2), ("z", Json.num 3)])])
          ⟨[], 0⟩ acInit).events
        = pre ++ Event.scheduleNext AiBot.LOOP_INTERVAL_MS :: post ∧
      AiBot.LOOP_INTERVAL_MS = 10000 ∧
      (∀ ev ∈ pre, Event.isRunEnd ev = false ∧ Event.isSchedule ev = false) ∧
      (∀ ev ∈ post, Event.isSchedule ev = false) :=
  c9_fixed_cadence_armed_at_launch actBAllOk ActionVal.cancel
    [("move_to_position",
      [("x", Json.num 1), ("y", Json.num 2), ("z", Json.num 3)])]
    ⟨[], 0⟩ acInit
